import Mathlib

/-!
# Verification of the AdMesh TypeScript PII-sanitization pipeline

A shallow embedding of the repository's sanitization pipeline
(`src/patterns.ts`, `src/sanitizer.ts` (shipped inside `resources/recommend.ts`),
`src/builder.ts`, `src/sanitize-and-build.ts`) into Lean 4, together with
theorems settling the frozen claims about it.

Texts are modelled as `List Char` (JS strings of ASCII text); the JS regular
expressions of `patterns.ts` are translated rule-by-rule into executable
backtracking matchers over positions (leftmost match, alternatives in listed
order, greedy quantifiers with backtracking, as the JS engine resolves them);
`lastIndex`-style `g`-flag scanning is the `execAll` loop.  Case-insensitive
(`i`-flag) matching is ASCII case folding.
-/

/-- Text, as the character sequence of a JS string (ASCII fragment). -/
abbrev Str := List Char

/-- The characters of a Lean string literal, used to write concrete texts. -/
def str (s : String) : Str := s.data

/-- ASCII uppercase letter test (`A`-`Z`). -/
def isUpperChar (c : Char) : Bool := 65 ≤ c.toNat && c.toNat ≤ 90

/-- ASCII lowercase letter test (`a`-`z`). -/
def isLowerChar (c : Char) : Bool := 97 ≤ c.toNat && c.toNat ≤ 122

/-- ASCII letter test (`[A-Za-z]`; also what `[A-Z]` and `[a-z]` match under the `i` flag). -/
def isAlphaChar (c : Char) : Bool := isUpperChar c || isLowerChar c

/-- ASCII digit test (`\d`). -/
def isDigitChar (c : Char) : Bool := 48 ≤ c.toNat && c.toNat ≤ 57

/-- JS `\s` on the ASCII range: space, tab, line feed, carriage return, vertical tab, form feed. -/
def isSpaceChar (c : Char) : Bool :=
  c == ' ' || c == '\t' || c == '\n' || c == '\r' || c == '\x0b' || c == '\x0c'

/-- JS word character for `\b`: `[A-Za-z0-9_]`. -/
def isWordChar (c : Char) : Bool := isAlphaChar c || isDigitChar c || c == '_'

/-- ASCII `toLowerCase` on one character (JS `String.prototype.toLowerCase`, ASCII fragment). -/
def lowerChar (c : Char) : Char :=
  if isUpperChar c then Char.ofNat (c.toNat + 32) else c

/-- ASCII `toUpperCase` on one character. -/
def upperChar (c : Char) : Char :=
  if isLowerChar c then Char.ofNat (c.toNat - 32) else c

/-- `s.toLowerCase()`. -/
def lowerStr (s : Str) : Str := s.map lowerChar

/-- `s.toUpperCase()`. -/
def upperStr (s : Str) : Str := s.map upperChar

/-- ASCII case-insensitive character equality (`i`-flag canonicalization). -/
def eqCI (c d : Char) : Bool := lowerChar c == lowerChar d

/-- Case-sensitive character equality, for patterns without the `i` flag. -/
def eqCS (c d : Char) : Bool := c == d

/-- `s.trim()`: strip leading and trailing whitespace. -/
def trimStr (s : Str) : Str :=
  ((s.dropWhile isSpaceChar).reverse.dropWhile isSpaceChar).reverse

/-- Whether `pat` occurs as a contiguous substring (JS `String.prototype.includes`). -/
def containsSub : Str → Str → Bool
  | _, [] => true
  | [], (_ :: _) => false
  | c :: rest, pat => pat.isPrefixOf (c :: rest) || containsSub rest pat

/-- ECMAScript `GetSubstitution` for a plain-string pattern (no capture groups):
expand `$$` to `$`, `$&` to the matched text, a dollar-backtick pair to the text
before the match, `$'` to the text after it; any other `$`-sequence (including
`$1`…`$99`, which exceed the zero captures of a string pattern, and `$<`) stays
literal. -/
def getSubstitution (matched before after : Str) : Str → Str
  | [] => []
  | c :: rest =>
    if c = '$' then
      match rest with
      | [] => ['$']
      | d :: rs =>
        if d = '$' then '$' :: getSubstitution matched before after rs
        else if d = '&' then matched ++ getSubstitution matched before after rs
        else if d = '`' then before ++ getSubstitution matched before after rs
        else if d = '\'' then after ++ getSubstitution matched before after rs
        else '$' :: getSubstitution matched before after (d :: rs)
    else c :: getSubstitution matched before after rest

/-- The scan of JS `text.replace(pat, repl)` with a plain-string `pat`: find the
first occurrence, splice in the `GetSubstitution`-processed replacement (`pre`
accumulates the reversed prefix already passed, for the dollar-backtick form),
leave the text unchanged when `pat` does not occur. -/
def replaceFirstAux (pat repl : Str) : Str → Str → Str
  | pre, [] => if pat.isPrefixOf [] then getSubstitution pat pre.reverse [] repl else []
  | pre, c :: rest =>
    if pat.isPrefixOf (c :: rest) then
      getSubstitution pat pre.reverse ((c :: rest).drop pat.length) repl
        ++ (c :: rest).drop pat.length
    else c :: replaceFirstAux pat repl (c :: pre) rest

/-- JS `text.replace(pat, repl)` with a plain-string `pat`: replace the first
occurrence only (with `$`-substitution in the replacement), leave the text
unchanged when `pat` does not occur. -/
def replaceFirst (pat repl : Str) (t : Str) : Str := replaceFirstAux pat repl [] t

/-- `text.replace(/\s+/g, ' ')`: each maximal whitespace run becomes one space.
The flag records whether the previous character was inside a run. -/
def collapseWSAux : Bool → Str → Str
  | _, [] => []
  | inRun, c :: rest =>
    if isSpaceChar c then
      if inRun then collapseWSAux true rest else ' ' :: collapseWSAux true rest
    else c :: collapseWSAux false rest

/-- `text.replace(/\s+/g, ' ')`. -/
def collapseWS (s : Str) : Str := collapseWSAux false s

/-- The substring of `t` from position `a` (inclusive) to `b` (exclusive). -/
def extract (t : Str) (a b : Nat) : Str := (t.drop a).take (b - a)

/-- `parseInt(s, 10)` on a pure digit string: the decimal value. -/
def parseNat (s : Str) : Nat := s.foldl (fun acc c => acc * 10 + (c.toNat - 48)) 0

/-- The decimal rendering of a natural number (`Number.prototype.toString`). -/
def digitChar (d : Nat) : Char :=
  if d = 0 then '0' else if d = 1 then '1' else if d = 2 then '2' else if d = 3 then '3'
  else if d = 4 then '4' else if d = 5 then '5' else if d = 6 then '6' else if d = 7 then '7'
  else if d = 8 then '8' else '9'

/-- Decimal digits, most significant first; structural recursion on a fuel bound
(`n / 10 < n`, so `n + 1` steps always suffice). -/
def natCharsAux : Nat → Nat → Str
  | 0, _ => []
  | fuel + 1, n =>
    if n < 10 then [digitChar n]
    else natCharsAux fuel (n / 10) ++ [digitChar (n % 10)]

/-- Decimal digits of `n`, most significant first. -/
def natChars (n : Nat) : Str := natCharsAux (n + 1) n

/-- Whether some string in `ps` is a prefix of `s` (`ps.some(p => s.startsWith(p))`). -/
def startsWithAny (s : Str) (ps : List Str) : Bool := ps.any (fun p => p.isPrefixOf s)

theorem dropWhile_length_le (p : Char → Bool) (l : List Char) :
    (l.dropWhile p).length ≤ l.length := by
  induction l with
  | nil => simp
  | cons c r ih => by_cases h : p c <;> simp [List.dropWhile, h] <;> omega

/-- JS `s.split(/\s+/)`: split at maximal whitespace runs; a leading or trailing
run contributes an empty piece, and the empty string splits to `[""]`.  Structural
recursion on a fuel bound (the remaining text shrinks every step). -/
def splitWSAux : Nat → Str → Str → List Str
  | 0, _, _ => []
  | fuel + 1, cur, rest =>
    match rest with
    | [] => [cur.reverse]
    | c :: rest =>
      if isSpaceChar c then cur.reverse :: splitWSAux fuel [] (rest.dropWhile isSpaceChar)
      else splitWSAux fuel (c :: cur) rest

/-- JS `s.split(/\s+/)`. -/
def splitWS (s : Str) : List Str := splitWSAux (s.length + 1) [] s

/-- Order-preserving de-duplication, first occurrence kept (`[...new Set(xs)]`). -/
def dedupKeepFirstAux (seen : List Str) : List Str → List Str
  | [] => []
  | x :: xs =>
    if x ∈ seen then dedupKeepFirstAux seen xs
    else x :: dedupKeepFirstAux (x :: seen) xs

/-- `[...new Set(xs)]`. -/
def dedupKeepFirst (xs : List Str) : List Str := dedupKeepFirstAux [] xs

/-! ## The matching engine

A matcher runs over the full text `t` at a position `i` and returns the list of
possible outcomes `(end-position, captured-group spans)` in the order the JS
backtracking engine would try them: the JS engine's chosen match is the head. -/

/-- A captured group: start and end position in the text. -/
abbrev Span := Nat × Nat

/-- One outcome: position after the consumed part, spans of the groups captured. -/
abbrev MRes := Nat × List Span

/-- A backtracking matcher over positions of the full text. -/
abbrev Matcher := Str → Nat → List MRes

/-- The empty pattern. -/
def mEps : Matcher := fun _ i => [(i, [])]

/-- Sequencing: all continuations of `a` then `b`, group lists concatenated. -/
def mseq (a b : Matcher) : Matcher := fun t i =>
  (a t i).flatMap (fun r => (b t r.1).map (fun s => (s.1, r.2 ++ s.2)))

/-- Alternation `x|y|…`: alternatives tried in listed order. -/
def malt (ms : List Matcher) : Matcher := fun t i => ms.flatMap (fun m => m t i)

/-- Greedy option `x?`: with `x` first, then without. -/
def mopt (m : Matcher) : Matcher := fun t i => m t i ++ [(i, [])]

/-- A single character of a class. -/
def mchar (p : Char → Bool) : Matcher := fun t i =>
  match t.get? i with
  | some c => if p c then [(i + 1, [])] else []
  | none => []

/-- Length of the maximal run of class characters starting at `i`. -/
def runLen (p : Char → Bool) (t : Str) (i : Nat) : Nat := ((t.drop i).takeWhile p).length

/-- Greedy `x+` over a character class: longest first, at least one. -/
def mplus (p : Char → Bool) : Matcher := fun t i =>
  (List.range (runLen p t i)).map (fun d => (i + runLen p t i - d, []))

/-- Greedy `x*` over a character class: longest first, possibly empty. -/
def mstar (p : Char → Bool) : Matcher := fun t i =>
  (List.range (runLen p t i + 1)).map (fun d => (i + runLen p t i - d, []))

/-- Greedy bounded repetition `x{lo,hi}` over a character class. -/
def mrep (p : Char → Bool) (lo hi : Nat) : Matcher := fun t i =>
  let k := min hi (runLen p t i)
  if k < lo then [] else (List.range (k + 1 - lo)).map (fun d => (i + k - d, []))

/-- Greedy unbounded repetition `x{lo,}` over a character class. -/
def mrepAtLeast (p : Char → Bool) (lo : Nat) : Matcher := fun t i =>
  let k := runLen p t i
  if k < lo then [] else (List.range (k + 1 - lo)).map (fun d => (i + k - d, []))

/-- Whether the character at position `i` is a word character (out of range counts as not). -/
def isWordAt (t : Str) (i : Nat) : Bool :=
  match t.get? i with
  | some c => isWordChar c
  | none => false

/-- Word boundary `\b`: zero width, word-ness differs across the position. -/
def mbound : Matcher := fun t i =>
  let prevW := if i = 0 then false else isWordAt t (i - 1)
  if prevW != isWordAt t i then [(i, [])] else []

/-- Whether the literal `s` stands at position `i` of `t` under character equality `eq`. -/
def litHolds (eq : Char → Char → Bool) : Str → Str → Nat → Bool
  | [], _, _ => true
  | c :: cs, t, i =>
    match t.get? i with
    | some d => eq c d && litHolds eq cs t (i + 1)
    | none => false

/-- A literal, under case-sensitive (`eqCS`) or case-insensitive (`eqCI`) equality. -/
def mlit (eq : Char → Char → Bool) (s : Str) : Matcher := fun t i =>
  if litHolds eq s t i then [(i + s.length, [])] else []

/-- A capturing group around `m`: records the span this group consumed. -/
def mgroup (m : Matcher) : Matcher := fun t i =>
  (m t i).map (fun r => (r.1, (i, r.1) :: r.2))

/-- One match attempt: the JS engine commits to the first outcome in backtracking order. -/
def matchAt (m : Matcher) (t : Str) (i : Nat) : Option MRes := (m t i).head?

/-- The leftmost match at or after position `i`:
`(start, end, group spans)`.  Fuel counts the remaining start positions. -/
def findFromAux (m : Matcher) (t : Str) : Nat → Nat → Option (Nat × Nat × List Span)
  | _, 0 => none
  | i, fuel + 1 =>
    match matchAt m t i with
    | some r => some (i, r.1, r.2)
    | none => findFromAux m t (i + 1) fuel

/-- The leftmost match at or after position `i` (`RegExp.prototype.exec` after
`lastIndex = i`, for the patterns of this file, none of which can match empty). -/
def findFrom (m : Matcher) (t : Str) (i : Nat) : Option (Nat × Nat × List Span) :=
  findFromAux m t i (t.length + 1 - i)

/-- All matches of a `g`-flagged pattern: repeat `exec`, resuming after each match. -/
def execAllAux (m : Matcher) (t : Str) : Nat → Nat → List (Nat × Nat × List Span)
  | _, 0 => []
  | i, fuel + 1 =>
    match findFrom m t i with
    | none => []
    | some (s, e, gs) => (s, e, gs) :: execAllAux m t (max e (s + 1)) fuel

/-- All matches of a `g`-flagged pattern over `t`, leftmost first. -/
def execAll (m : Matcher) (t : Str) : List (Nat × Nat × List Span) :=
  execAllAux m t 0 (t.length + 1)

/-- `match[1]`: the text of the first captured group (for this file's patterns
a capture, when the pattern has one, is always filled). -/
def groupStr (t : Str) (gs : List Span) : Str :=
  match gs with
  | [] => []
  | (a, b) :: _ => extract t a b

/-- `match[0]`: the full matched text. -/
def fullStr (t : Str) (s e : Nat) : Str := extract t s e

/-! ## Pattern library (`src/patterns.ts`)

Each JS regular expression is translated into a matcher, one combinator per
regex construct, in source order.  All `NAME`/`AGE`/`GENDER`/`GOAL` patterns
carry the `i` flag, so their letter classes use ASCII case folding. -/

/-- `[-\s]`, the separator class of the phone and age patterns. -/
def isDashSpace (c : Char) : Bool := c == '-' || isSpaceChar c

/-- `[-.]`, the separator class of the third phone pattern. -/
def isDashDot (c : Char) : Bool := c == '-' || c == '.'

/-- `[:\s]`, the separator class of the fourth age pattern. -/
def isColonSpace (c : Char) : Bool := c == ':' || isSpaceChar c

/-- `[A-Za-z0-9._%+-]`, the local part of the email pattern. -/
def isLocalChar (c : Char) : Bool :=
  isAlphaChar c || isDigitChar c || c == '.' || c == '_' || c == '%' || c == '+' || c == '-'

/-- `[A-Za-z0-9.-]`, the domain part of the email pattern. -/
def isDomChar (c : Char) : Bool := isAlphaChar c || isDigitChar c || c == '.' || c == '-'

/-- `[A-Z|a-z]`, the TLD class of the email pattern (the `|` is a class member). -/
def isTldChar (c : Char) : Bool := isAlphaChar c || c == '|'

/-- `[^.!?,]`, the phrase class of the first two goal patterns. -/
def isPhraseChar (c : Char) : Bool := !(c == '.' || c == '!' || c == '?' || c == ',')

/-- `[^.!?]`, the phrase class of the third goal pattern. -/
def isPhraseChar3 (c : Char) : Bool := !(c == '.' || c == '!' || c == '?')

/-- `I'?m` (case-insensitive). -/
def mIm : Matcher :=
  mseq (mlit eqCI (str "I")) (mseq (mopt (mlit eqCS (str "'"))) (mlit eqCI (str "m")))

/-- `[A-Z][a-z]+` under the `i` flag: a letter then one or more letters. -/
def mNameWord : Matcher := mseq (mchar isAlphaChar) (mplus isAlphaChar)

/-- `[A-Z][a-z]+(?:\s+[A-Z][a-z]+)?` under the `i` flag: one or two words. -/
def mNameInner : Matcher := mseq mNameWord (mopt (mseq (mplus isSpaceChar) mNameWord))

/-- `NAME_PATTERNS[0]`: `\b(?:I'?m|my name is|I am|call me)\s+([A-Z][a-z]+(?:\s+[A-Z][a-z]+)?)\b`. -/
def namePat1 : Matcher :=
  mseq mbound (mseq
    (malt [mIm, mlit eqCI (str "my name is"), mlit eqCI (str "I am"), mlit eqCI (str "call me")])
    (mseq (mplus isSpaceChar) (mseq (mgroup mNameInner) mbound)))

/-- `NAME_PATTERNS[1]`: `\b(?:hi|hello|hey),?\s+(?:I'?m|my name is|I am)\s+(…)\b`. -/
def namePat2 : Matcher :=
  mseq mbound (mseq
    (malt [mlit eqCI (str "hi"), mlit eqCI (str "hello"), mlit eqCI (str "hey")])
    (mseq (mopt (mlit eqCS (str ",")))
      (mseq (mplus isSpaceChar)
        (mseq (malt [mIm, mlit eqCI (str "my name is"), mlit eqCI (str "I am")])
          (mseq (mplus isSpaceChar) (mseq (mgroup mNameInner) mbound))))))

/-- `NAME_PATTERNS[2]`: `\b(?:this is)\s+([A-Z][a-z]+(?:\s+[A-Z][a-z]+)?)\s+here\b`. -/
def namePat3 : Matcher :=
  mseq mbound (mseq (mlit eqCI (str "this is"))
    (mseq (mplus isSpaceChar)
      (mseq (mgroup mNameInner)
        (mseq (mplus isSpaceChar) (mseq (mlit eqCI (str "here")) mbound)))))

/-- `NAME_PATTERNS` in listed order. -/
def namePatterns : List Matcher := [namePat1, namePat2, namePat3]

/-- `EMAIL_PATTERN`: `\b[A-Za-z0-9._%+-]+@[A-Za-z0-9.-]+\.[A-Z|a-z]{2,}\b` (case-sensitive). -/
def emailPat : Matcher :=
  mseq mbound (mseq (mplus isLocalChar)
    (mseq (mlit eqCS (str "@"))
      (mseq (mplus isDomChar)
        (mseq (mlit eqCS (str ".")) (mseq (mrepAtLeast isTldChar 2) mbound)))))

/-- `PHONE_PATTERNS[0]`: `\+1[-\s]?\(?(\d{3})\)?[-\s]?(\d{3})[-\s]?(\d{4})\b`. -/
def phonePat1 : Matcher :=
  mseq (mlit eqCS (str "+1"))
    (mseq (mopt (mchar isDashSpace))
      (mseq (mopt (mlit eqCS (str "(")))
        (mseq (mgroup (mrep isDigitChar 3 3))
          (mseq (mopt (mlit eqCS (str ")")))
            (mseq (mopt (mchar isDashSpace))
              (mseq (mgroup (mrep isDigitChar 3 3))
                (mseq (mopt (mchar isDashSpace))
                  (mseq (mgroup (mrep isDigitChar 4 4)) mbound))))))))

/-- `PHONE_PATTERNS[1]`: `\((\d{3})\)\s?(\d{3})[-\s]?(\d{4})\b`. -/
def phonePat2 : Matcher :=
  mseq (mlit eqCS (str "("))
    (mseq (mgroup (mrep isDigitChar 3 3))
      (mseq (mlit eqCS (str ")"))
        (mseq (mopt (mchar isSpaceChar))
          (mseq (mgroup (mrep isDigitChar 3 3))
            (mseq (mopt (mchar isDashSpace))
              (mseq (mgroup (mrep isDigitChar 4 4)) mbound))))))

/-- `PHONE_PATTERNS[2]`: `\b(\d{3})[-.](\d{3})[-.](\d{4})\b`. -/
def phonePat3 : Matcher :=
  mseq mbound
    (mseq (mgroup (mrep isDigitChar 3 3))
      (mseq (mchar isDashDot)
        (mseq (mgroup (mrep isDigitChar 3 3))
          (mseq (mchar isDashDot) (mseq (mgroup (mrep isDigitChar 4 4)) mbound)))))

/-- `PHONE_PATTERNS[3]`: `\b(\d{3})\s(\d{3})\s(\d{4})\b`. -/
def phonePat4 : Matcher :=
  mseq mbound
    (mseq (mgroup (mrep isDigitChar 3 3))
      (mseq (mchar isSpaceChar)
        (mseq (mgroup (mrep isDigitChar 3 3))
          (mseq (mchar isSpaceChar) (mseq (mgroup (mrep isDigitChar 4 4)) mbound)))))

/-- `PHONE_PATTERNS[4]`: `\+\d{1,3}[-\s]?\d{1,14}\b` (no capture group). -/
def phonePat5 : Matcher :=
  mseq (mlit eqCS (str "+"))
    (mseq (mrep isDigitChar 1 3)
      (mseq (mopt (mchar isDashSpace)) (mseq (mrep isDigitChar 1 14) mbound)))

/-- `PHONE_PATTERNS` in listed order. -/
def phonePatterns : List Matcher := [phonePat1, phonePat2, phonePat3, phonePat4, phonePat5]

/-- `years?\s*old|yr\s*old|y\.?o\.?`, the unit part of `AGE_PATTERNS[1]`. -/
def mAgeUnit : Matcher :=
  malt
    [mseq (mlit eqCI (str "year"))
      (mseq (mopt (mlit eqCI (str "s"))) (mseq (mstar isSpaceChar) (mlit eqCI (str "old")))),
     mseq (mlit eqCI (str "yr")) (mseq (mstar isSpaceChar) (mlit eqCI (str "old"))),
     mseq (mlit eqCI (str "y"))
      (mseq (mopt (mlit eqCS (str ".")))
        (mseq (mlit eqCI (str "o")) (mopt (mlit eqCS (str ".")))))]

/-- `AGE_PATTERNS[0]`: `\b(?:I'?m|I am)\s+(\d{1,2})\b`. -/
def agePat1 : Matcher :=
  mseq mbound (mseq (malt [mIm, mlit eqCI (str "I am")])
    (mseq (mplus isSpaceChar) (mseq (mgroup (mrep isDigitChar 1 2)) mbound)))

/-- `AGE_PATTERNS[1]`: `\b(\d{1,2})\s*(?:years?\s*old|yr\s*old|y\.?o\.?)\b`. -/
def agePat2 : Matcher :=
  mseq mbound (mseq (mgroup (mrep isDigitChar 1 2))
    (mseq (mstar isSpaceChar) (mseq mAgeUnit mbound)))

/-- `AGE_PATTERNS[2]`: `\b(\d{1,2})[-\s]?year[-\s]?old\b`. -/
def agePat3 : Matcher :=
  mseq mbound (mseq (mgroup (mrep isDigitChar 1 2))
    (mseq (mopt (mchar isDashSpace))
      (mseq (mlit eqCI (str "year"))
        (mseq (mopt (mchar isDashSpace)) (mseq (mlit eqCI (str "old")) mbound)))))

/-- `AGE_PATTERNS[3]`: `\bage[:\s]+(\d{1,2})\b`. -/
def agePat4 : Matcher :=
  mseq mbound (mseq (mlit eqCI (str "age"))
    (mseq (mplus isColonSpace) (mseq (mgroup (mrep isDigitChar 1 2)) mbound)))

/-- `AGE_PATTERNS` in listed order. -/
def agePatterns : List Matcher := [agePat1, agePat2, agePat3, agePat4]

/-- The nine gender tokens of `GENDER_PATTERNS[0]`, in alternation order. -/
def genderTokens9 : List Str :=
  [str "male", str "female", str "man", str "woman", str "guy", str "girl",
   str "boy", str "gentleman", str "lady"]

/-- The six gender tokens of `GENDER_PATTERNS[1]`, in alternation order. -/
def genderTokens6 : List Str :=
  [str "male", str "female", str "man", str "woman", str "guy", str "girl"]

/-- `GENDER_PATTERNS[0]`: `\b(male|female|man|woman|guy|girl|boy|gentleman|lady)\b`. -/
def genderPat1 : Matcher :=
  mseq mbound (mseq (mgroup (malt (genderTokens9.map (fun s => mlit eqCI s)))) mbound)

/-- `GENDER_PATTERNS[1]`: `\b(?:I'?m a|I am a)\s+(male|female|man|woman|guy|girl)\b`. -/
def genderPat2 : Matcher :=
  mseq mbound (mseq (malt [mseq mIm (mlit eqCI (str " a")), mlit eqCI (str "I am a")])
    (mseq (mplus isSpaceChar)
      (mseq (mgroup (malt (genderTokens6.map (fun s => mlit eqCI s)))) mbound)))

/-- `GENDER_PATTERNS` in listed order. -/
def genderPatterns : List Matcher := [genderPat1, genderPat2]

/-- The seven goal action verbs of `GOAL_PATTERNS[0]`, in alternation order. -/
def goalVerbs : List Str :=
  [str "building", str "creating", str "developing", str "making",
   str "working on", str "starting", str "launching"]

/-- `GOAL_PATTERNS[0]`:
`\b((?:building|creating|developing|making|working on|starting|launching)\s+(?:a\s+)?[^.!?,]+)`. -/
def goalPat1 : Matcher :=
  mseq mbound (mgroup
    (mseq (malt (goalVerbs.map (fun s => mlit eqCI s)))
      (mseq (mplus isSpaceChar)
        (mseq (mopt (mseq (mlit eqCI (str "a")) (mplus isSpaceChar))) (mplus isPhraseChar)))))

/-- `GOAL_PATTERNS[1]`: `\b((?:want to|need to|trying to|planning to|looking to)\s+[^.!?,]+)`. -/
def goalPat2 : Matcher :=
  mseq mbound (mgroup
    (mseq (malt [mlit eqCI (str "want to"), mlit eqCI (str "need to"),
                 mlit eqCI (str "trying to"), mlit eqCI (str "planning to"),
                 mlit eqCI (str "looking to")])
      (mseq (mplus isSpaceChar) (mplus isPhraseChar))))

/-- `GOAL_PATTERNS[2]`:
`\b(?:project|app|website|business|startup|company|tool|platform|service)\s+(?:for|about|that)\s+([^.!?]+)`. -/
def goalPat3 : Matcher :=
  mseq mbound
    (mseq (malt [mlit eqCI (str "project"), mlit eqCI (str "app"), mlit eqCI (str "website"),
                 mlit eqCI (str "business"), mlit eqCI (str "startup"), mlit eqCI (str "company"),
                 mlit eqCI (str "tool"), mlit eqCI (str "platform"), mlit eqCI (str "service")])
      (mseq (mplus isSpaceChar)
        (mseq (malt [mlit eqCI (str "for"), mlit eqCI (str "about"), mlit eqCI (str "that")])
          (mseq (mplus isSpaceChar) (mgroup (mplus isPhraseChar3))))))

/-- `GOAL_PATTERNS` in listed order. -/
def goalPatterns : List Matcher := [goalPat1, goalPat2, goalPat3]

/-! ## Pure helpers of `src/patterns.ts` -/

/-- `COMMON_WORDS`: the stoplist excluded from name detection, as listed in the source. -/
def commonWords : List Str :=
  [str "about", str "after", str "again", str "against", str "all", str "am", str "an",
   str "and", str "any", str "are", str "as", str "at", str "be", str "been", str "before",
   str "being", str "below", str "between", str "both", str "but", str "by", str "can",
   str "did", str "do", str "does", str "doing", str "don", str "down", str "during",
   str "each", str "few", str "for", str "from", str "further", str "had", str "has",
   str "have", str "having", str "he", str "her", str "here", str "hers", str "herself",
   str "him", str "himself", str "his", str "how", str "if", str "in", str "into",
   str "is", str "it", str "its", str "itself", str "just", str "me", str "more",
   str "most", str "my", str "myself", str "no", str "nor", str "not", str "now",
   str "of", str "off", str "on", str "once", str "only", str "or", str "other",
   str "our", str "ours", str "ourselves", str "out", str "over", str "own", str "s",
   str "same", str "she", str "should", str "so", str "some", str "such", str "than",
   str "that", str "the", str "their", str "theirs", str "them", str "themselves",
   str "then", str "there", str "these", str "they", str "this", str "those",
   str "through", str "to", str "too", str "under", str "until", str "up", str "very",
   str "was", str "we", str "were", str "what", str "when", str "where", str "which",
   str "while", str "who", str "whom", str "why", str "will", str "with", str "would",
   str "you", str "your", str "yours", str "yourself", str "yourselves", str "hello",
   str "hi", str "hey", str "thanks", str "thank", str "please", str "yes", str "yeah",
   str "ok", str "okay"]

/-- `isValidName` of `patterns.ts`: length, stoplist, character-class and acronym filters. -/
def isValidName (name : Str) : Bool :=
  if name == [] || (trimStr name).length < 2 then false
  else if commonWords.contains (trimStr (lowerStr name)) then false
  else if !(name.all (fun c => isAlphaChar c || isSpaceChar c)) then false
  else if name == upperStr name && name.length > 3 then false
  else true

/-- `normalizeGender` of `patterns.ts`: map the fixed token sets to `male`/`female`,
pass anything else through lowercased. -/
def normalizeGender (gender : Str) : Str :=
  let genderLower := lowerStr gender
  if [str "male", str "man", str "guy", str "boy", str "gentleman"].contains genderLower then
    str "male"
  else if [str "female", str "woman", str "girl", str "lady"].contains genderLower then
    str "female"
  else genderLower

/-- `extractGoalText` of `patterns.ts`: trim, strip one trailing run of `.!?`,
truncate to 100 characters with `...`, trim again. -/
def extractGoalText (matchText : Str) : Str :=
  let goal := trimStr matchText
  let goal := (goal.reverse.dropWhile (fun c => c == '.' || c == '!' || c == '?')).reverse
  let goal := if goal.length > 100 then goal.take 100 ++ str "..." else goal
  trimStr goal

/-! ## The PII sanitizer (`src/sanitizer.ts`, class `PIISanitizer`) -/

/-- Detection output: names, emails, phones, in detection order. -/
structure DetectedPII where
  names : List Str
  emails : List Str
  phones : List Str
deriving DecidableEq, Repr

/-- Extracted soft context: age, gender, goal, each possibly absent. -/
structure ExtractedContext where
  age : Option Nat
  gender : Option Str
  goal : Option Str
deriving DecidableEq, Repr

/-- The response-shaped projection of `DetectedPII`. -/
structure FormattedPII where
  name : Option Str
  email : Option Str
  phone : Option Str
deriving DecidableEq, Repr

/-- `analyzeText`'s result triple. -/
structure AnalysisResult where
  sanitizedText : Str
  detectedPII : DetectedPII
  extractedContext : ExtractedContext
deriving DecidableEq, Repr

/-- Case-insensitive order-preserving de-duplication: `seen` holds lowercased entries. -/
def dedupCIAux (seen : List Str) : List Str → List Str
  | [] => []
  | n :: ns =>
    if seen.contains (lowerStr n) then dedupCIAux seen ns
    else n :: dedupCIAux (lowerStr n :: seen) ns

/-- The case-insensitive de-duplication loop of `detectNames`. -/
def dedupCI (l : List Str) : List Str := dedupCIAux [] l

/-- `detectNames`: all matches of all name patterns, filtered by `isValidName` and the
phrase guard, trimmed, then de-duplicated case-insensitively, first occurrence kept. -/
def detectNames (t : Str) : List Str :=
  dedupCI (namePatterns.flatMap (fun p =>
    (execAll p t).filterMap (fun m =>
      let name := groupStr t m.2.2
      if name ≠ [] && isValidName name
          && !([str "the ", str "a ", str "an "].any
                (fun phrase => containsSub (lowerStr name) phrase)) then
        some (trimStr name)
      else none)))

/-- `detectEmails`: all matches of the email pattern, de-duplicated. -/
def detectEmails (t : Str) : List Str :=
  dedupKeepFirst ((execAll emailPat t).map (fun m => fullStr t m.1 m.2.1))

/-- The phone value pushed per match in `detectPhones`: three captured groups give
`(AAA) BBB-CCCC`; no group gives the full match; any other group count joins with `-`. -/
def formatPhoneMatch (groups : List Str) (full : Str) : Str :=
  match groups with
  | [a, b, c] => str "(" ++ a ++ str ") " ++ b ++ str "-" ++ c
  | [] => full
  | gs => List.intercalate (str "-") gs

/-- `detectPhones`: all matches of all phone patterns, reconstructed per
`formatPhoneMatch`, then de-duplicated. -/
def detectPhones (t : Str) : List Str :=
  dedupKeepFirst (phonePatterns.flatMap (fun p =>
    (execAll p t).map (fun m =>
      formatPhoneMatch ((m.2.2).map (fun sp => extract t sp.1 sp.2)) (fullStr t m.1 m.2.1))))

/-- The pattern loop of `extractAge`: first match per pattern; an out-of-range value
falls through to the next pattern. -/
def ageLoop (t : Str) : List Matcher → Option Nat
  | [] => none
  | p :: ps =>
    match findFrom p t 0 with
    | some (_, _, gs) =>
      let age := parseNat (groupStr t gs)
      if 13 ≤ age && age ≤ 100 then some age else ageLoop t ps
    | none => ageLoop t ps

/-- `extractAge`: first age pattern whose first match parses into `[13,100]`. -/
def extractAge (t : Str) : Option Nat := ageLoop t agePatterns

/-- The pattern loop of `extractGender`: first pattern with a match wins. -/
def genderLoop (t : Str) : List Matcher → Option Str
  | [] => none
  | p :: ps =>
    match findFrom p t 0 with
    | some (_, _, gs) => some (normalizeGender (groupStr t gs))
    | none => genderLoop t ps

/-- `extractGender`: normalized capture of the first gender pattern that matches. -/
def extractGender (t : Str) : Option Str := genderLoop t genderPatterns

/-- The pattern loop of `extractGoal`: a cleaned capture of more than 3 characters wins. -/
def goalLoop (t : Str) : List Matcher → Option Str
  | [] => none
  | p :: ps =>
    match findFrom p t 0 with
    | some (_, _, gs) =>
      let cleanedGoal := extractGoalText (groupStr t gs)
      if cleanedGoal ≠ [] && cleanedGoal.length > 3 then some cleanedGoal else goalLoop t ps
    | none => goalLoop t ps

/-- `extractGoal`: first goal pattern whose cleaned capture is long enough. -/
def extractGoal (t : Str) : Option Str := goalLoop t goalPatterns

/-- The word-boundary test of the dynamically built name-redaction regex `\bname\b`. -/
def boundaryAt (t : Str) (i : Nat) : Bool :=
  (if i = 0 then false else isWordAt t (i - 1)) != isWordAt t i

/-- One `text.replace(new RegExp('\\b' + escapedName + '\\b', 'gi'), '[NAME]')` pass:
scan left to right over the original text, replacing each non-overlapping
case-insensitive whole-word occurrence. -/
def replaceNameAux (full name : Str) : Nat → Nat → Str
  | _, 0 => []
  | i, fuel + 1 =>
    if full.length ≤ i then []
    else if name ≠ [] && litHolds eqCI name full i && boundaryAt full i
        && boundaryAt full (i + name.length) then
      str "[NAME]" ++ replaceNameAux full name (i + name.length) fuel
    else
      match full.get? i with
      | some c => c :: replaceNameAux full name (i + 1) fuel
      | none => []

/-- Replace all whole-word case-insensitive occurrences of `name` with `[NAME]`. -/
def replaceNameAll (t name : Str) : Str := replaceNameAux t name 0 (t.length + 1)

/-- `removePII`: redact names (whole-word, case-insensitive, all occurrences), then
emails and phones (literal `String.replace`, hence first occurrence only), then
collapse whitespace runs and trim. -/
def removePII (text : Str) (detectedPII : DetectedPII) : Str :=
  let s1 :=
    if 0 < detectedPII.names.length then
      detectedPII.names.foldl (fun acc name => replaceNameAll acc name) text
    else text
  let s2 :=
    if 0 < detectedPII.emails.length then
      detectedPII.emails.foldl (fun acc email => replaceFirst email (str "[EMAIL]") acc) s1
    else s1
  let s3 :=
    if 0 < detectedPII.phones.length then
      detectedPII.phones.foldl (fun acc phone => replaceFirst phone (str "[PHONE]") acc) s2
    else s2
  trimStr (collapseWS s3)

/-- `analyzeText`: detect PII, extract context, redact. -/
def analyzeText (text : Str) : AnalysisResult :=
  let names := detectNames text
  let emails := detectEmails text
  let phones := detectPhones text
  let age := extractAge text
  let gender := extractGender text
  let goal := extractGoal text
  let detectedPII : DetectedPII := ⟨names, emails, phones⟩
  { sanitizedText := removePII text detectedPII,
    detectedPII := detectedPII,
    extractedContext := ⟨age, gender, goal⟩ }

/-! ## The prompt builder (`src/builder.ts`, class `PromptBuilder`) -/

/-- The template keys of `contextTemplates`, in source order. -/
inductive TKey where
  | full
  | age_gender
  | age_goal
  | gender_goal
  | age_only
  | gender_only
  | goal_only
  | fallback
deriving DecidableEq, Repr

/-- `contextTemplates`: the eight sentence skeletons. -/
def contextTemplate : TKey → Str
  | .full => str "Suggest tools for a {age}-year-old {gender} {goal}."
  | .age_gender => str "Suggest tools for a {age}-year-old {gender}."
  | .age_goal => str "Suggest tools for someone {goal} (age {age})."
  | .gender_goal => str "Suggest tools for a {gender} {goal}."
  | .age_only => str "Suggest tools for a {age}-year-old."
  | .gender_only => str "Suggest tools for a {gender}."
  | .goal_only => str "Suggest tools for {goal}."
  | .fallback => str "Suggest relevant tools and services."

/-- `Object.keys(goalPrefixes)`: the verb keys checked by `normalizeGoal`, in insertion order. -/
def goalVerbKeys : List Str :=
  [str "building", str "creating", str "developing", str "making",
   str "working on", str "starting", str "launching"]

/-- `normalizeGoal`: lowercase-trim, keep a verb-led goal, else prefix
`working on ` (article-led or default) or `building ` (product-noun-led). -/
def normalizeGoal (goal : Str) : Str :=
  if goal == [] then []
  else
    let normalizedGoal := lowerStr (trimStr goal)
    if startsWithAny normalizedGoal goalVerbKeys then normalizedGoal
    else if (str "a ").isPrefixOf normalizedGoal || (str "an ").isPrefixOf normalizedGoal
        || (str "the ").isPrefixOf normalizedGoal then
      str "working on " ++ normalizedGoal
    else if startsWithAny normalizedGoal
        [str "app", str "website", str "business", str "startup", str "tool", str "platform"] then
      str "building " ++ normalizedGoal
    else str "working on " ++ normalizedGoal

/-- `selectTemplate`: the presence triple decides the key; goal presence also
requires a non-whitespace goal. -/
def selectTemplate (age : Option Nat) (gender : Option Str) (goal : Option Str) : TKey :=
  let hasAge := age.isSome
  let hasGender := gender.isSome
  let hasGoal :=
    match goal with
    | some g => decide (0 < (trimStr g).length)
    | none => false
  if hasAge && hasGender && hasGoal then .full
  else if hasAge && hasGender then .age_gender
  else if hasAge && hasGoal then .age_goal
  else if hasGender && hasGoal then .gender_goal
  else if hasAge then .age_only
  else if hasGender then .gender_only
  else if hasGoal then .goal_only
  else .fallback

/-- `buildPrompt`: normalize a truthy goal, select the template, substitute the
placeholders by successive `String.replace` calls (first occurrence each). -/
def buildPrompt (extractedContext : ExtractedContext) : Str :=
  let normalizedGoal : Option Str :=
    match extractedContext.goal with
    | some g => if g == [] then none else some (normalizeGoal g)
    | none => none
  let templateKey := selectTemplate extractedContext.age extractedContext.gender normalizedGoal
  let template := contextTemplate templateKey
  let ageStr := natChars (extractedContext.age.getD 0)
  let genderStr := extractedContext.gender.getD []
  let goalStr := normalizedGoal.getD []
  match templateKey with
  | .full =>
    replaceFirst (str "{goal}") goalStr
      (replaceFirst (str "{gender}") genderStr (replaceFirst (str "{age}") ageStr template))
  | .age_gender =>
    replaceFirst (str "{gender}") genderStr (replaceFirst (str "{age}") ageStr template)
  | .age_goal =>
    replaceFirst (str "{goal}") goalStr (replaceFirst (str "{age}") ageStr template)
  | .gender_goal =>
    replaceFirst (str "{goal}") goalStr (replaceFirst (str "{gender}") genderStr template)
  | .age_only => replaceFirst (str "{age}") ageStr template
  | .gender_only => replaceFirst (str "{gender}") genderStr template
  | .goal_only => replaceFirst (str "{goal}") goalStr template
  | .fallback => template

/-- `enhanceWithSanitizedText`: inspect the redacted text (placeholder share is the
exact-rational reading of `count / length > 0.5`), and return the base prompt on
every branch. -/
def enhanceWithSanitizedText (basePrompt sanitizedText : Str) : Str :=
  if sanitizedText == []
      || [str "", str "[NAME]", str "[EMAIL]", str "[PHONE]"].contains (trimStr sanitizedText)
  then basePrompt
  else
    let cleanedText := trimStr sanitizedText
    let placeholderTokens := [str "[NAME]", str "[EMAIL]", str "[PHONE]"]
    let words := splitWS cleanedText
    let placeholderCount :=
      (words.filter (fun w => placeholderTokens.any (fun tok => containsSub w tok))).length
    if 0 < words.length && words.length < placeholderCount * 2 then basePrompt
    else if cleanedText.length ≤ 20
        || [str "Suggest", str "I need", str "Looking for", str "Hi,", str "Hello,"].any
            (fun p => p.isPrefixOf cleanedText) then
      basePrompt
    else basePrompt

/-- `buildCompletePrompt`: base prompt from context, then the enrichment step. -/
def buildCompletePrompt (sanitizedText : Str) (extractedContext : ExtractedContext) : Str :=
  let basePrompt := buildPrompt extractedContext
  let enhancedPrompt := enhanceWithSanitizedText basePrompt sanitizedText
  enhancedPrompt

/-- `formatRemovedPII`: first detected instance per category, or null. -/
def formatRemovedPII (detectedPII : DetectedPII) : FormattedPII :=
  { name := if 0 < detectedPII.names.length then detectedPII.names.head? else none,
    email := if 0 < detectedPII.emails.length then detectedPII.emails.head? else none,
    phone := if 0 < detectedPII.phones.length then detectedPII.phones.head? else none }

/-! ## The entry point (`src/sanitize-and-build.ts`) -/

/-- The externally visible result record. -/
structure SanitizeAndBuildResult where
  prompt : Str
  removed : FormattedPII
  extracted_context : ExtractedContext
deriving DecidableEq, Repr

/-- The canonical all-absent fallback result. -/
def fallbackResult : SanitizeAndBuildResult :=
  { prompt := str "Suggest relevant tools and services.",
    removed := ⟨none, none, none⟩,
    extracted_context := ⟨none, none, none⟩ }

/-- `sanitizeAndBuild`: `none` models a missing or non-string input, `some []` the
empty string; both short-circuit to the fallback (`!userInput || typeof userInput
!== 'string'`).  Otherwise analyze, build the prompt, and shape the result. -/
def sanitizeAndBuild (userInput : Option Str) : SanitizeAndBuildResult :=
  match userInput with
  | none => fallbackResult
  | some t =>
    if t == [] then fallbackResult
    else
      let analysisResult := analyzeText t
      { prompt := buildCompletePrompt analysisResult.sanitizedText analysisResult.extractedContext,
        removed := formatRemovedPII analysisResult.detectedPII,
        extracted_context := analysisResult.extractedContext }

/-! ## The spec's template table (for the refinement comparison of C5)

`promptSpecTable` is written from the words of spec §4.3 (the 8-case table with
normalized goal and simultaneous placeholder substitution), not from the code;
the goal-presence test is the amended one: non-null and non-empty. -/

/-- The spec's end-to-end scenario input (C1). -/
def priyaInput : Str :=
  str "Hi, I'm Priya (priya@gmail.com, call me at (555) 123-4567). I'm a 27-year-old female building a wellness app."

/-- A text holding the same phone number twice (C2). -/
def twoPhonesInput : Str := str "(555) 123-4567 and (555) 123-4567"

/-- A text holding the same email address twice (C3). -/
def twoEmailsInput : Str := str "a@b.com a@b.com"

/-- A text with two distinct emails in scan order (C4). -/
def twoDistinctEmailsInput : Str :=
  str "Reach me at work@company.com or personal@gmail.com."

/-- An age text whose first pattern match is out of range and whose later pattern
match is in range (C6). -/
def ageFallThroughInput : Str := str "I am 5. age: 30"

/-! ## Helper lemmas -/

/-- Every branch of the enrichment step returns the base prompt unchanged. -/
theorem enhance_returns_base (basePrompt sanitizedText : Str) :
    enhanceWithSanitizedText basePrompt sanitizedText = basePrompt := by
  unfold enhanceWithSanitizedText
  dsimp only
  repeat' split
  all_goals rfl

/-- Any value the age-pattern loop returns lies in `[13, 100]`. -/
theorem ageLoop_range (t : Str) :
    ∀ ps n, ageLoop t ps = some n → 13 ≤ n ∧ n ≤ 100 := by
  intro ps
  induction ps with
  | nil => intro n h; simp [ageLoop] at h
  | cons p ps ih =>
    intro n h
    unfold ageLoop at h
    rcases hf : findFrom p t 0 with _ | ⟨s, e, gs⟩ <;> rw [hf] at h
    · exact ih n h
    · dsimp only at h
      split at h
      · rename_i hrange
        cases h
        simpa using hrange
      · exact ih n h

/-- Order-preserving de-duplication keeps the head. -/
theorem dedupKeepFirst_head (l : List Str) : (dedupKeepFirst l).head? = l.head? := by
  cases l with
  | nil => rfl
  | cons x xs => simp [dedupKeepFirst, dedupKeepFirstAux]

/-! ## Claim theorems -/

set_option maxRecDepth 100000

/-- C8: an empty, missing or non-string input short-circuits `sanitizeAndBuild` to the
canonical fallback result: the fallback prompt sentence and all removed/context
fields null. -/
theorem C8_invalid_input_yields_fallback :
    sanitizeAndBuild none = fallbackResult
      ∧ sanitizeAndBuild (some []) = fallbackResult
      ∧ fallbackResult.prompt = str "Suggest relevant tools and services."
      ∧ fallbackResult.removed = ⟨none, none, none⟩
      ∧ fallbackResult.extracted_context = ⟨none, none, none⟩ := by
  refine ⟨rfl, rfl, rfl, rfl, rfl⟩

/-- C9: the enrichment step is the identity on its first argument for all inputs, so
`buildCompletePrompt` coincides with `buildPrompt`. -/
theorem C9_enhance_is_identity :
    (∀ basePrompt sanitizedText : Str,
        enhanceWithSanitizedText basePrompt sanitizedText = basePrompt)
      ∧ ∀ (sanitizedText : Str) (ctx : ExtractedContext),
          buildCompletePrompt sanitizedText ctx = buildPrompt ctx := by
  refine ⟨enhance_returns_base, fun s ctx => ?_⟩
  unfold buildCompletePrompt
  exact enhance_returns_base (buildPrompt ctx) s

/-- C6: `extractAge` returns nothing or an integer in `[13, 100]`; and on
`"I am 5. age: 30"` the out-of-range first-pattern match `5` is discarded and the
later pattern's `30` is returned, never `5`. -/
theorem C6_age_range_and_fall_through :
    (∀ t n, extractAge t = some n → 13 ≤ n ∧ n ≤ 100)
      ∧ extractAge ageFallThroughInput = some 30
      ∧ extractAge (str "I am 5") = none := by
  refine ⟨fun t n h => ageLoop_range t agePatterns n h, by decide, by decide⟩

/-- C4: `formatRemovedPII` keeps exactly the head of each detected sequence (or null);
the head of `detectEmails` is the first match of the left-to-right email scan
(de-duplication keeps first occurrences); and on a two-email input the earlier
email is the one reported. -/
theorem C4_removed_is_first_detected :
    (∀ d : DetectedPII,
        formatRemovedPII d = ⟨d.names.head?, d.emails.head?, d.phones.head?⟩)
      ∧ (∀ t : Str,
          (detectEmails t).head? = ((execAll emailPat t).map (fun m => fullStr t m.1 m.2.1)).head?)
      ∧ detectEmails twoDistinctEmailsInput = [str "work@company.com", str "personal@gmail.com"]
      ∧ (sanitizeAndBuild (some twoDistinctEmailsInput)).removed.email
          = some (str "work@company.com") := by
  refine ⟨fun d => ?_, fun t => dedupKeepFirst_head _, by decide, by decide⟩
  rcases d with ⟨names, emails, phones⟩
  cases names <;> cases emails <;> cases phones <;> simp [formatRemovedPII]

/-- C1: the spec's end-to-end scenario.  The prompt, the removed record and the
extracted context are exactly as the spec states, and the goal contains
"building a wellness app". -/
theorem C1_priya_scenario :
    (sanitizeAndBuild (some priyaInput)).prompt
        = str "Suggest tools for a 27-year-old female building a wellness app."
      ∧ (sanitizeAndBuild (some priyaInput)).removed
        = ⟨some (str "Priya"), some (str "priya@gmail.com"), some (str "(555) 123-4567")⟩
      ∧ (sanitizeAndBuild (some priyaInput)).extracted_context.age = some 27
      ∧ (sanitizeAndBuild (some priyaInput)).extracted_context.gender = some (str "female")
      ∧ ∃ g, (sanitizeAndBuild (some priyaInput)).extracted_context.goal = some g
          ∧ containsSub g (str "building a wellness app") = true := by
  refine ⟨by decide, by decide, by decide, by decide,
    ⟨str "building a wellness app", by decide, by decide⟩⟩

/-- C2 (against the code): the claimed idempotence of redaction fails.  On a text
holding the same phone twice, detection finds a phone, yet re-running detection on
the redacted output still finds the same phone: the literal `String.replace` of
`removePII` replaces only the first occurrence. -/
theorem C2_redaction_not_idempotent :
    (analyzeText twoPhonesInput).detectedPII.phones = [str "(555) 123-4567"]
      ∧ (analyzeText twoPhonesInput).sanitizedText = str "[PHONE] and (555) 123-4567"
      ∧ (analyzeText ((analyzeText twoPhonesInput).sanitizedText)).detectedPII.phones
          = [str "(555) 123-4567"] := by
  refine ⟨by decide, by decide, by decide⟩

/-- C3 (against the code): `removePII` replaces only the first literal occurrence of a
detected email, not every occurrence: on `"a@b.com a@b.com"` the redacted text is
`"[EMAIL] a@b.com"` and still contains the detected email. -/
theorem C3_replace_hits_first_occurrence_only :
    (analyzeText twoEmailsInput).detectedPII.emails = [str "a@b.com"]
      ∧ (analyzeText twoEmailsInput).sanitizedText = str "[EMAIL] a@b.com"
      ∧ containsSub (analyzeText twoEmailsInput).sanitizedText (str "a@b.com") = true := by
  refine ⟨by decide, by decide, by decide⟩

/-- C7: the per-match phone value: three captured groups are reassembled as
`(AAA) BBB-CCCC`, any other nonzero group count is joined with hyphens, and a
match with no groups (the international catch-all) is pushed verbatim; two
end-to-end rule instances. -/
theorem C7_phone_reconstruction :
    (∀ (gs : List Str) (full : Str), gs.length = 3 →
        ∃ a b c, gs = [a, b, c]
          ∧ formatPhoneMatch gs full = str "(" ++ a ++ str ") " ++ b ++ str "-" ++ c)
      ∧ (∀ (gs : List Str) (full : Str), gs ≠ [] → gs.length ≠ 3 →
          formatPhoneMatch gs full = List.intercalate (str "-") gs)
      ∧ (∀ full : Str, formatPhoneMatch [] full = full)
      ∧ detectPhones (str "+1 (555) 123-4567") = [str "(555) 123-4567"]
      ∧ detectPhones (str "+49 170") = [str "+49 170"] := by
  refine ⟨?_, ?_, fun full => rfl, by decide, by decide⟩
  · intro gs full h
    match gs, h with
    | [a, b, c], _ => exact ⟨a, b, c, rfl, rfl⟩
  · intro gs full hne h3
    match gs, hne, h3 with
    | [a], _, _ => rfl
    | [a, b], _, _ => rfl
    | [a, b, c], _, h3 => exact absurd rfl h3
    | a :: b :: c :: d :: rest, _, _ => rfl

/-! ## Engine inversion lemmas (for C10) -/

/-- A matcher that never records a capture. -/
def GroupFree (m : Matcher) : Prop := ∀ t i r, r ∈ m t i → r.2 = ([] : List Span)

theorem gf_mEps : GroupFree mEps := by
  intro t i r h; simp [mEps] at h; simp [h]

theorem gf_mbound : GroupFree mbound := by
  intro t i r h
  unfold mbound at h
  split at h <;> simp at h <;> simp [h]

theorem gf_mchar (p : Char → Bool) : GroupFree (mchar p) := by
  intro t i r h
  unfold mchar at h
  rcases hc : t.get? i with _ | c <;> rw [hc] at h
  · simp at h
  · split at h <;> simp at h <;> simp [h]

theorem gf_mplus (p : Char → Bool) : GroupFree (mplus p) := by
  intro t i r h
  simp [mplus] at h
  obtain ⟨d, _, h⟩ := h
  simp [← h]

theorem gf_mstar (p : Char → Bool) : GroupFree (mstar p) := by
  intro t i r h
  simp [mstar] at h
  obtain ⟨d, _, h⟩ := h
  simp [← h]

theorem gf_mrep (p : Char → Bool) (lo hi : Nat) : GroupFree (mrep p lo hi) := by
  intro t i r h
  simp only [mrep] at h
  split at h
  · simp at h
  · simp at h; obtain ⟨d, _, h⟩ := h; simp [← h]

theorem gf_mrepAtLeast (p : Char → Bool) (lo : Nat) : GroupFree (mrepAtLeast p lo) := by
  intro t i r h
  simp only [mrepAtLeast] at h
  split at h
  · simp at h
  · simp at h; obtain ⟨d, _, h⟩ := h; simp [← h]

theorem gf_mlit (eq : Char → Char → Bool) (s : Str) : GroupFree (mlit eq s) := by
  intro t i r h
  unfold mlit at h
  split at h <;> simp at h <;> simp [h]

theorem gf_mseq {a b : Matcher} (ha : GroupFree a) (hb : GroupFree b) : GroupFree (mseq a b) := by
  intro t i r h
  simp [mseq] at h
  obtain ⟨e1, g1, h1, e2, g2, h2, hr⟩ := h
  have := ha t i (e1, g1) h1
  have := hb t e1 (e2, g2) h2
  simp_all [← hr]

theorem gf_malt {ms : List Matcher} (h : ∀ m ∈ ms, GroupFree m) : GroupFree (malt ms) := by
  intro t i r hr
  simp [malt] at hr
  obtain ⟨m, hm, hr⟩ := hr
  exact h m hm t i r hr

theorem gf_mopt {m : Matcher} (h : GroupFree m) : GroupFree (mopt m) := by
  intro t i r hr
  simp [mopt] at hr
  rcases hr with hr | hr
  · exact h t i r hr
  · simp [hr]

/-- Membership in a sequencing decomposes into the two parts. -/
theorem mem_mseq {a b : Matcher} {t : Str} {i e : Nat} {gs : List Span}
    (h : (e, gs) ∈ mseq a b t i) :
    ∃ j g1 g2, (j, g1) ∈ a t i ∧ (e, g2) ∈ b t j ∧ gs = g1 ++ g2 := by
  simp [mseq] at h
  obtain ⟨j, g1, h1, e2, g2, h2, he, hg⟩ := h
  exact ⟨j, g1, g2, h1, by rw [he] at h2; exact h2, hg.symm⟩

/-- Membership in an alternation comes from one alternative. -/
theorem mem_malt {ms : List Matcher} {t : Str} {i : Nat} {r : MRes}
    (h : r ∈ malt ms t i) : ∃ m ∈ ms, r ∈ m t i := by
  simpa [malt] using h

/-- Membership in a capturing group: the inner match, with the group span recorded. -/
theorem mem_mgroup {m : Matcher} {t : Str} {i e : Nat} {gs : List Span}
    (h : (e, gs) ∈ mgroup m t i) :
    ∃ gs2, (e, gs2) ∈ m t i ∧ gs = (i, e) :: gs2 := by
  simp [mgroup] at h
  obtain ⟨e2, gs2, hmem, he, hgs⟩ := h
  subst he
  exact ⟨gs2, hmem, hgs.symm⟩

/-- A boundary match consumes nothing and captures nothing. -/
theorem mem_mbound {t : Str} {i : Nat} {r : MRes} (h : r ∈ mbound t i) : r = (i, []) := by
  unfold mbound at h
  dsimp only at h
  split at h <;> simp at h <;> exact h.2

/-- A literal match ends after the literal's length and captures nothing. -/
theorem mem_mlit {eq : Char → Char → Bool} {s t : Str} {i : Nat} {r : MRes}
    (h : r ∈ mlit eq s t i) : r = (i + s.length, []) ∧ litHolds eq s t i = true := by
  unfold mlit at h
  split at h
  · next hl => exact ⟨by simpa using h, hl⟩
  · simp at h

/-- The head of a list is a member. -/
theorem head?_mem {α : Type} {l : List α} {a : α} (h : l.head? = some a) : a ∈ l := by
  cases l with
  | nil => simp at h
  | cons x xs => simp at h; simp [h]

/-- A match found by the scan loop is a match of the pattern at its start position. -/
theorem findFromAux_mem {m : Matcher} {t : Str} :
    ∀ fuel i s e gs, findFromAux m t i fuel = some (s, e, gs) → (e, gs) ∈ m t s := by
  intro fuel
  induction fuel with
  | zero => intro i s e gs h; simp [findFromAux] at h
  | succ fuel ih =>
    intro i s e gs h
    unfold findFromAux at h
    rcases hm : matchAt m t i with _ | r <;> rw [hm] at h
    · exact ih (i + 1) s e gs h
    · rcases r with ⟨e2, gs2⟩
      simp at h
      obtain ⟨hs, he, hgs⟩ := h
      subst hs; subst he; subst hgs
      exact head?_mem hm

/-- A match found by `findFrom` is a match of the pattern at its start position. -/
theorem findFrom_mem {m : Matcher} {t : Str} {i s e : Nat} {gs : List Span}
    (h : findFrom m t i = some (s, e, gs)) : (e, gs) ∈ m t s :=
  findFromAux_mem _ i s e gs h

/-- Dropping from a position with a known character peels that character off. -/
theorem drop_eq_cons_of_get? {l : List Char} {i : Nat} {d : Char} (h : l.get? i = some d) :
    l.drop i = d :: l.drop (i + 1) := by
  induction l generalizing i with
  | nil => simp at h
  | cons c r ih =>
    cases i with
    | zero => simp_all
    | succ j => simpa using ih (by simpa using h)

/-- Case-insensitive equality of characters means equal lowercase foldings. -/
theorem eqCI_lower {c d : Char} (h : eqCI c d = true) : lowerChar c = lowerChar d := by
  simpa [eqCI] using h

/-- A case-insensitive literal match reads a span whose lowercase folding is the
literal's lowercase folding. -/
theorem litHolds_eqCI_lower {t : Str} :
    ∀ (s : Str) (i : Nat), litHolds eqCI s t i = true →
      lowerStr (extract t i (i + s.length)) = lowerStr s := by
  intro s
  induction s with
  | nil => intro i _; simp [extract, lowerStr]
  | cons c cs ih =>
    intro i h
    unfold litHolds at h
    rcases hg : t.get? i with _ | d <;> rw [hg] at h
    · simp at h
    · simp at h
      obtain ⟨hcd, hrest⟩ := h
      have hdrop := drop_eq_cons_of_get? hg
      have hlen : (c :: cs).length = cs.length + 1 := by simp
      have hext : extract t i (i + (c :: cs).length) = d :: extract t (i + 1) (i + 1 + cs.length) := by
        rw [hlen]
        unfold extract
        rw [hdrop]
        have e1 : i + (cs.length + 1) - i = cs.length + 1 := by omega
        have e2 : i + 1 + cs.length - (i + 1) = cs.length := by omega
        rw [e1, e2]
        simp
      rw [hext]
      have h1 : lowerChar d = lowerChar c := (eqCI_lower hcd).symm
      have h2 := ih (i + 1) hrest
      simp only [lowerStr, List.map_cons]
      rw [h1]
      simp only [lowerStr] at h2
      rw [h2]

/-- A match of an alternation of case-insensitive literals captures nothing, ends after
one of the literals, and reads a span folding to that literal. -/
theorem mem_malt_litCI {toks : List Str} {t : Str} {i e : Nat} {gs : List Span}
    (h : (e, gs) ∈ malt (toks.map (fun s => mlit eqCI s)) t i) :
    ∃ tok ∈ toks, e = i + tok.length ∧ gs = []
      ∧ lowerStr (extract t i (i + tok.length)) = lowerStr tok := by
  obtain ⟨m, hm, hr⟩ := mem_malt h
  simp at hm
  obtain ⟨tok, htok, hmeq⟩ := hm
  rw [← hmeq] at hr
  obtain ⟨hre, hl⟩ := mem_mlit hr
  injection hre with h1 h2
  exact ⟨tok, htok, h1, h2, litHolds_eqCI_lower tok i hl⟩

theorem gf_mIm : GroupFree mIm := by
  unfold mIm
  exact gf_mseq (gf_mlit _ _) (gf_mseq (gf_mopt (gf_mlit _ _)) (gf_mlit _ _))

/-- The capture of `GENDER_PATTERNS[0]` folds to one of the nine tokens. -/
theorem genderPat1_capture {t : Str} {i e : Nat} {gs : List Span}
    (h : (e, gs) ∈ genderPat1 t i) :
    ∃ tok ∈ genderTokens9, lowerStr (groupStr t gs) = lowerStr tok := by
  unfold genderPat1 at h
  obtain ⟨j, g1, g2, hb1, hrest, hgs⟩ := mem_mseq h
  have hb1' := mem_mbound hb1
  rw [Prod.mk.injEq] at hb1'
  obtain ⟨hj, hg1⟩ := hb1'
  subst hj; subst hg1
  obtain ⟨k, h1, h2, hgrp, hb2, hg2⟩ := mem_mseq hrest
  have hb2' := mem_mbound hb2
  rw [Prod.mk.injEq] at hb2'
  obtain ⟨hek, hh2⟩ := hb2'
  subst hek; subst hh2
  obtain ⟨gs2, halt, hh1⟩ := mem_mgroup hgrp
  obtain ⟨tok, htok, hk, hgs2, hlow⟩ := mem_malt_litCI halt
  subst hgs2
  refine ⟨tok, htok, ?_⟩
  rw [hgs, hg2, hh1]
  simpa [groupStr, hk] using hlow

/-- The capture of `GENDER_PATTERNS[1]` folds to one of the six tokens. -/
theorem genderPat2_capture {t : Str} {i e : Nat} {gs : List Span}
    (h : (e, gs) ∈ genderPat2 t i) :
    ∃ tok ∈ genderTokens6, lowerStr (groupStr t gs) = lowerStr tok := by
  unfold genderPat2 at h
  obtain ⟨j, g1, g2, hb1, hrest, hgs⟩ := mem_mseq h
  have hb1' := mem_mbound hb1
  rw [Prod.mk.injEq] at hb1'
  obtain ⟨hj, hg1⟩ := hb1'
  subst hj; subst hg1
  obtain ⟨j2, p1, p2, hpref, hrest2, hg2⟩ := mem_mseq hrest
  have hp1 : p1 = [] := by
    refine gf_malt ?_ _ _ _ hpref
    intro m hm
    simp at hm
    rcases hm with hm | hm
    · rw [hm]; exact gf_mseq gf_mIm (gf_mlit _ _)
    · rw [hm]; exact gf_mlit _ _
  subst hp1
  obtain ⟨j3, q1, q2, hsp, hrest3, hp2⟩ := mem_mseq hrest2
  have hq1 : q1 = [] := gf_mplus isSpaceChar _ _ _ hsp
  subst hq1
  obtain ⟨k, h1, h2, hgrp, hb2, hq2⟩ := mem_mseq hrest3
  have hb2' := mem_mbound hb2
  rw [Prod.mk.injEq] at hb2'
  obtain ⟨hek, hh2⟩ := hb2'
  subst hek; subst hh2
  obtain ⟨gs2, halt, hh1⟩ := mem_mgroup hgrp
  obtain ⟨tok, htok, hk, hgs2, hlow⟩ := mem_malt_litCI halt
  subst hgs2
  refine ⟨tok, htok, ?_⟩
  rw [hgs, hg2, hp2, hq2, hh1]
  simpa [groupStr, hk] using hlow

/-- Each of the six contextual gender tokens is one of the nine direct ones. -/
theorem genderTokens6_sub : ∀ x ∈ genderTokens6, x ∈ genderTokens9 := by
  intro x hx
  simp only [genderTokens6, List.mem_cons, List.not_mem_nil, or_false] at hx
  rcases hx with rfl | rfl | rfl | rfl | rfl | rfl <;> decide

/-- A string folding to one of the nine tokens normalizes to `male` or `female`. -/
theorem normalizeGender_of_token {x tok : Str} (htok : tok ∈ genderTokens9)
    (hx : lowerStr x = lowerStr tok) :
    normalizeGender x = str "male" ∨ normalizeGender x = str "female" := by
  simp only [genderTokens9, List.mem_cons, List.not_mem_nil, or_false] at htok
  rcases htok with rfl | rfl | rfl | rfl | rfl | rfl | rfl | rfl | rfl <;>
    (simp only [normalizeGender]; rw [hx]; decide)

/-- C10: `extractGender` can only return nothing, `male`, or `female`: the gender
patterns capture one of nine fixed tokens and `normalizeGender` maps each to
`male` or `female`, so the free-form pass-through is unreachable. -/
theorem C10_gender_is_male_female_or_absent :
    ∀ t : Str, extractGender t = none
      ∨ extractGender t = some (str "male")
      ∨ extractGender t = some (str "female") := by
  intro t
  unfold extractGender genderPatterns genderLoop
  rcases h1 : findFrom genderPat1 t 0 with _ | ⟨s1, e1, gs1⟩
  · unfold genderLoop
    rcases h2 : findFrom genderPat2 t 0 with _ | ⟨s2, e2, gs2⟩
    · unfold genderLoop
      simp
    · simp only []
      obtain ⟨tok, htok, hlow⟩ := genderPat2_capture (findFrom_mem h2)
      rcases normalizeGender_of_token (genderTokens6_sub tok htok) hlow with hm | hf
      · right; left; rw [hm]
      · right; right; rw [hf]
  · simp only []
    obtain ⟨tok, htok, hlow⟩ := genderPat1_capture (findFrom_mem h1)
    rcases normalizeGender_of_token htok hlow with hm | hf
    · right; left; rw [hm]
    · right; right; rw [hf]

/-! ## Substitution lemmas (for C5) -/

theorem toNat_ofNat_valid {n : Nat} (h : n < 55296) : (Char.ofNat n).toNat = n := by
  have hv : Nat.isValidChar n := Or.inl h
  simp [Char.ofNat, hv, Char.ofNatAux, Char.toNat, UInt32.toNat]

/-- Lowercasing never produces a `{`. -/
theorem lowerChar_ne_brace {c : Char} (h : c ≠ '{') : lowerChar c ≠ '{' := by
  unfold lowerChar
  split
  · next hu =>
    intro habs
    simp [isUpperChar] at hu
    have h1 : c.toNat + 32 < 55296 := by omega
    have h2 : (Char.ofNat (c.toNat + 32)).toNat = c.toNat + 32 := toNat_ofNat_valid h1
    rw [habs] at h2
    have h3 : ('{' : Char).toNat = 123 := by decide
    omega
  · exact h

theorem mem_trimStr_sub {c : Char} {s : Str} (h : c ∈ trimStr s) : c ∈ s := by
  unfold trimStr at h
  rw [List.mem_reverse] at h
  have h1 := List.dropWhile_sublist (l := (s.dropWhile isSpaceChar).reverse) (p := isSpaceChar)
  have h2 := h1.mem h
  rw [List.mem_reverse] at h2
  exact (List.dropWhile_sublist (l := s) (p := isSpaceChar)).mem h2

theorem mem_lowerStr {c : Char} {s : Str} (h : c ∈ lowerStr s) : ∃ d ∈ s, c = lowerChar d := by
  simp [lowerStr] at h
  obtain ⟨d, hd, hc⟩ := h
  exact ⟨d, hd, hc.symm⟩

/-- `normalizeGoal` of a brace-free goal is brace-free. -/
theorem normalizeGoal_no_brace {go : Str} (h : '{' ∉ go) : '{' ∉ normalizeGoal go := by
  have base : '{' ∉ lowerStr (trimStr go) := by
    intro habs
    obtain ⟨d, hd, hc⟩ := mem_lowerStr habs
    have hdgo : d ∈ go := mem_trimStr_sub hd
    have : d ≠ '{' := fun hh => h (hh ▸ hdgo)
    exact lowerChar_ne_brace this hc.symm
  unfold normalizeGoal
  split
  · simp
  · dsimp only
    split
    · exact base
    · split
      · simp only [List.mem_append]
        rintro (habs | habs)
        · revert habs; decide
        · exact base habs
      · split
        · simp only [List.mem_append]
          rintro (habs | habs)
          · revert habs; decide
          · exact base habs
        · simp only [List.mem_append]
          rintro (habs | habs)
          · revert habs; decide
          · exact base habs

